import Mathlib

/-!
Shallow embedding of the ledger-and-reconciler core of the
prime-send-receive-go repository.

Monetary amounts (shopspring decimal.Decimal in the Go sources) are modelled
as exact rationals (Rat); decimal arithmetic on Add/Neg/compare is exact, so
Rat is a faithful model of the values the code computes.  Database tables are
modelled as lists of rows inside a Store value; uuid.New() is modelled as a
deterministic fresh-id counter; created_at timestamps are modelled by a
logical clock that increases with every inserted transaction row.
-/

namespace PrimeSendReceive

/-- A row of the transactions table (models database.Transaction /
models.Transaction: internal/database/transactions.go). -/
structure Txn where
  id : String
  userId : String
  asset : String
  transactionType : String
  amount : Rat
  balanceBefore : Rat
  balanceAfter : Rat
  externalTransactionId : String
  address : String
  reference : String
  status : String
  createdAt : Nat
deriving DecidableEq

/-- A row of the account_balances table (models database.AccountBalance). -/
structure AccountBalance where
  id : String
  userId : String
  asset : String
  balance : Rat
  lastTransactionId : String
  version : Int
deriving DecidableEq

/-- A row of the journal_entries table (models the rows written by
addJournalEntries in internal/database/transactions.go). -/
structure JournalEntry where
  id : String
  transactionId : String
  accountType : String
  accountId : String
  debitAmount : Rat
  creditAmount : Rat
deriving DecidableEq

/-- The SQLite database state used by the subledger, plus a counter modelling
uuid.New() and a logical clock modelling CURRENT_TIMESTAMP / time.Now(). -/
structure Store where
  transactions : List Txn
  balances : List AccountBalance
  journal : List JournalEntry
  uuidCounter : Nat
  clock : Nat
deriving DecidableEq

def emptyStore : Store := ⟨[], [], [], 0, 0⟩

/-- Models uuid.New().String(): a fresh identifier, never colliding with
earlier ones from the same store. -/
def freshUuid (s : Store) : String × Store :=
  ("uuid-" ++ toString s.uuidCounter, { s with uuidCounter := s.uuidCounter + 1 })

/-- Errors returned by SubledgerService.ProcessTransaction
(internal/database/transactions.go). -/
inductive LedgerError where
  | duplicateTransaction (externalTxId existingInternalId : String)
  | concurrentModification
deriving DecidableEq

/-- The duplicate check query:
SELECT id FROM transactions WHERE external_transaction_id = ? LIMIT 1. -/
def findTxByExternalId (s : Store) (k : String) : Option Txn :=
  s.transactions.find? (fun t => t.externalTransactionId == k)

/-- The balance read inside ProcessTransaction:
SELECT id, balance, version FROM account_balances WHERE user_id = ? AND asset = ?. -/
def findBalanceRow (s : Store) (u a : String) : Option AccountBalance :=
  s.balances.find? (fun b => b.userId == u && b.asset == a)

/-- The WHERE clause of the optimistic-locking UPDATE:
user_id = ? AND asset = ? AND version = ?. -/
def balanceRowMatches (u a : String) (v : Int) (b : AccountBalance) : Bool :=
  b.userId == u && b.asset == a && b.version == v

/-- The optimistic-locking update
UPDATE account_balances SET balance = ?, last_transaction_id = ?,
version = version + 1, updated_at = CURRENT_TIMESTAMP
WHERE user_id = ? AND asset = ? AND version = ?
returning (updated table, rows affected). -/
def casUpdateBalance (bals : List AccountBalance) (newBalance : Rat)
    (txId u a : String) (v : Int) : List AccountBalance × Nat :=
  (bals.map (fun b =>
      if balanceRowMatches u a v b then
        { b with balance := newBalance, lastTransactionId := txId, version := b.version + 1 }
      else b),
   (bals.filter (balanceRowMatches u a v)).length)

/-- One element of the journalEntries slice built by addJournalEntries. -/
structure JRow where
  accountType : String
  accountId : String
  debitAmount : Rat
  creditAmount : Rat
deriving DecidableEq

/-- The switch on transaction.TransactionType in addJournalEntries
(internal/database/transactions.go): deposit debits the user_asset account and
credits the system_liability account by Amount; withdrawal credits user_asset
and debits system_liability by Amount.Neg(); any other type emits nothing. -/
def journalRowsFor (t : Txn) : List JRow :=
  if t.transactionType == "deposit" then
    [⟨"user_asset", t.userId ++ "_" ++ t.asset, t.amount, 0⟩,
     ⟨"system_liability", "user_deposits_" ++ t.asset, 0, t.amount⟩]
  else if t.transactionType == "withdrawal" then
    [⟨"user_asset", t.userId ++ "_" ++ t.asset, 0, -t.amount⟩,
     ⟨"system_liability", "user_deposits_" ++ t.asset, -t.amount, 0⟩]
  else []

/-- The body of the insert loop in addJournalEntries:
INSERT INTO journal_entries (id, transaction_id, account_type, account_id,
debit_amount, credit_amount) VALUES (?, ?, ?, ?, ?, ?). -/
def addJournalEntry (t : Txn) (st : Store) (row : JRow) : Store :=
  let pr := freshUuid st
  { pr.2 with journal := pr.2.journal ++
      [⟨pr.1, t.id, row.accountType, row.accountId, row.debitAmount, row.creditAmount⟩] }

/-- addJournalEntries (internal/database/transactions.go:143-200). -/
def addJournalEntries (st : Store) (t : Txn) : Store :=
  (journalRowsFor t).foldl (addJournalEntry t) st

/-- The straight-line tail of ProcessTransaction after the balance read:
compute the new balance, insert the transaction row, run the conditional
balance update (error when zero rows were affected), then write the journal
entries (internal/database/transactions.go:74-130). -/
def processTransactionBody (s : Store) (currentBalance : Rat) (version : Int)
    (u a ty : String) (amount : Rat) (k addr ref : String) :
    Except LedgerError (Txn × Store) :=
  let newBalance := currentBalance + amount
  let pr := freshUuid s
  let txn : Txn := ⟨pr.1, u, a, ty, amount, currentBalance, newBalance, k, addr, ref,
    "confirmed", pr.2.clock⟩
  let s2 : Store := { pr.2 with transactions := pr.2.transactions ++ [txn],
                                clock := pr.2.clock + 1 }
  let cas := casUpdateBalance s2.balances newBalance txn.id u a version
  if cas.2 = 0 then .error .concurrentModification
  else .ok (txn, addJournalEntries { s2 with balances := cas.1 } txn)

/-- The part of ProcessTransaction inside the store transaction: read the
balance row; when absent insert a fresh row with balance 0 and version 1 and
continue with (0, 1); when present continue with the row's balance and
version (internal/database/transactions.go:41-72). -/
def processTransactionTx (s : Store) (u a ty : String) (amount : Rat)
    (k addr ref : String) : Except LedgerError (Txn × Store) :=
  match findBalanceRow s u a with
  | some row => processTransactionBody s row.balance row.version u a ty amount k addr ref
  | none =>
      let pr := freshUuid s
      let s2 : Store := { pr.2 with balances := pr.2.balances ++ [⟨pr.1, u, a, 0, "", 1⟩] }
      processTransactionBody s2 0 1 u a ty amount k addr ref

/-- SubledgerService.ProcessTransaction
(internal/database/transactions.go:16-140): when external_tx_id is non-empty,
first look for an existing transaction row with that id and fail with the
duplicate-transaction error carrying the existing internal id; otherwise run
the store transaction. -/
def processTransaction (s : Store) (u a ty : String) (amount : Rat)
    (k addr ref : String) : Except LedgerError (Txn × Store) :=
  if k = "" then processTransactionTx s u a ty amount k addr ref
  else
    match findTxByExternalId s k with
    | some existing => .error (.duplicateTransaction k existing.id)
    | none => processTransactionTx s u a ty amount k addr ref

/-- Commit semantics: on success the new store is committed, on any error the
deferred tx.Rollback() leaves the store unchanged. -/
def runProcessTransaction (s : Store) (u a ty : String) (amount : Rat)
    (k addr ref : String) : Store × Option Txn :=
  match processTransaction s u a ty amount k addr ref with
  | .ok (t, s2) => (s2, some t)
  | .error _ => (s, none)

/-- SubledgerService.GetBalance (internal/database/balances.go):
SELECT balance FROM account_balances WHERE user_id = ? AND asset = ?;
sql.ErrNoRows means zero balance. -/
def getBalance (s : Store) (u a : String) : Rat :=
  match findBalanceRow s u a with
  | some b => b.balance
  | none => 0

/-- Observer for the version column; a missing row reads as version 0
(the spec's data-model convention for absent account_balances rows). -/
def storedVersion (s : Store) (u a : String) : Int :=
  match findBalanceRow s u a with
  | some b => b.version
  | none => 0

/-- Number of transaction rows carrying a given external_transaction_id. -/
def txCountWithExternalId (s : Store) (k : String) : Nat :=
  (s.transactions.filter (fun t => t.externalTransactionId == k)).length

/-! ## Transaction history (subledger and API layers) -/

/-- Insertion step for ORDER BY created_at DESC. -/
def insertByCreatedAtDesc (t : Txn) : List Txn → List Txn
  | [] => [t]
  | x :: xs => if x.createdAt ≤ t.createdAt then t :: x :: xs
               else x :: insertByCreatedAtDesc t xs

/-- ORDER BY created_at DESC. -/
def sortByCreatedAtDesc (l : List Txn) : List Txn :=
  l.foldr insertByCreatedAtDesc []

/-- OFFSET ?: SQLite treats a negative offset as 0. -/
def sqlOffset (off : Int) (l : List Txn) : List Txn := l.drop off.toNat

/-- LIMIT ?: SQLite treats a negative limit as no limit. -/
def sqlLimit (lim : Int) (l : List Txn) : List Txn :=
  if lim < 0 then l else l.take lim.toNat

/-- SubledgerService.GetTransactionHistory
(internal/database/transactions.go:202-252):
SELECT ... FROM transactions WHERE user_id = ? AND asset = ?
ORDER BY created_at DESC LIMIT ? OFFSET ?.
The caller's limit and offset are passed through unchanged. -/
def getTransactionHistory (s : Store) (u a : String) (lim off : Int) : List Txn :=
  sqlLimit lim (sqlOffset off
    (sortByCreatedAtDesc (s.transactions.filter (fun t => t.userId == u && t.asset == a))))

/-- The record shape returned by the API layer (internal/api). -/
structure TransactionRecord where
  id : String
  type : String
  asset : String
  amount : Rat
  address : String
  status : String
deriving DecidableEq

def toTransactionRecord (t : Txn) : TransactionRecord :=
  ⟨t.id, t.transactionType, t.asset, t.amount, t.address, t.status⟩

/-- The limit adjustment in LedgerService.GetTransactionHistory
(internal/api/balances.go:57-59): if limit <= 0 || limit > 100 { limit = 20 }. -/
def apiEffectiveLimit (lim : Int) : Int :=
  if lim ≤ 0 ∨ lim > 100 then 20 else lim

/-- The offset adjustment in LedgerService.GetTransactionHistory
(internal/api/balances.go:60-62): if offset < 0 { offset = 0 }. -/
def apiEffectiveOffset (off : Int) : Int :=
  if off < 0 then 0 else off

/-- LedgerService.GetTransactionHistory (internal/api/balances.go:52-87). -/
def apiGetTransactionHistory (s : Store) (u a : String) (lim off : Int) :
    Except String (List TransactionRecord) :=
  if u = "" ∨ a = "" then .error "user_id and asset are required"
  else .ok ((getTransactionHistory s u a (apiEffectiveLimit lim) (apiEffectiveOffset off)).map
    toTransactionRecord)

/-! ## Attribution and service layer -/

/-- A row of the users table. -/
structure UserRow where
  id : String
  name : String
  email : String
  active : Bool
deriving DecidableEq

/-- A row of the addresses table. -/
structure AddressRow where
  id : String
  userId : String
  asset : String
  network : String
  address : String
  walletId : String
  accountIdentifier : String
deriving DecidableEq

/-- Modelled from the spec: the SQL text of queryGetActiveUsers is not under
src (only the call site in internal/database/users.go, which logs
"Querying active users"); per spec section 4.3 the scan is over active users. -/
def getUsers (users : List UserRow) : List UserRow :=
  users.filter (fun us => us.active)

/-- Go's strings.Split(s, "-")[0]: the maximal run of characters before the
first hyphen (the whole string when it has no hyphen).  Split with a
non-empty separator always yields at least one element, so the Go code's
len(parts) == 0 branch is unreachable. -/
def goFirstSegment (str : String) : List Char :=
  str.data.takeWhile (fun c => !(c == '-'))

/-- Errors of findUserByIdempotencyKeyPrefix; the listener treats every one
of them as skip-without-marking. -/
inductive AttrError where
  | emptyKey
  | noMatch
deriving DecidableEq

/-- SendReceiveListener.findUserByIdempotencyKeyPrefix
(internal/listener/common.go:274-305): reject an empty key, take the first
hyphen-separated segment of the key, and return the id of the first active
user whose id has the same first segment, else a not-found error. -/
def findUserByIdemKey (users : List UserRow) (key : String) : Except AttrError String :=
  if key = "" then .error .emptyKey
  else
    match (getUsers users).find? (fun us => goFirstSegment us.id == goFirstSegment key) with
    | some us => .ok us.id
    | none => .error .noMatch

/-- Whether an address row is matched by the deposit lookup key.
Modelled from the spec: the SQL text of queryFindUserByAddress is not under
src; per spec section 4.3 the lookup key is the address-or-identifier. -/
def addrMatchesKey (key : String) (ad : AddressRow) : Bool :=
  ad.address == key || ad.accountIdentifier == key

/-- Service.FindUserByAddress (internal/database/addresses.go:122-147),
returning the Go triple (*User, *Address, error): the join is gated on
users.active (spec section 4.3); on sql.ErrNoRows the function returns
(nil, nil, nil) — a silent not-found, not an error value. -/
def findUserByAddress (users : List UserRow) (addrs : List AddressRow) (key : String) :
    Option UserRow × Option AddressRow × Option String :=
  match (addrs.filterMap (fun ad =>
      if addrMatchesKey key ad then
        (users.find? (fun us => us.id == ad.userId && us.active)).map (fun us => (us, ad))
      else none)).head? with
  | some (us, ad) => (some us, some ad, none)
  | none => (none, none, none)

/-- Errors of the database Service layer, tagged by the message the Go code
formats (the listener dispatches on substrings of these messages). -/
inductive ServiceError where
  | findUserError (msg : String)
  | noUserFoundForAddress (addr : String)
  | assetMismatch (expected received : String)
  | userNotFoundById (id : String)
  | ledger (e : LedgerError)
deriving DecidableEq

/-- strings.Contains(err.Error(), "duplicate transaction"): only the
subledger's duplicate error message contains that substring. -/
def errMentionsDuplicate : ServiceError → Bool
  | .ledger (.duplicateTransaction _ _) => true
  | _ => false

/-- strings.Contains(err.Error(), "no user found for address"). -/
def errMentionsNoUser : ServiceError → Bool
  | .noUserFoundForAddress _ => true
  | _ => false

/-- Service.ProcessDeposit (internal/database/service.go:155-188): find the
user by address; a query error fails; a nil user yields the
"no user found for address" error; an asset mismatch fails; otherwise the
subledger records a deposit of +amount keyed by the custody transaction id. -/
def serviceProcessDeposit (users : List UserRow) (addrs : List AddressRow) (s : Store)
    (address asset : String) (amount : Rat) (transactionId : String) :
    Except ServiceError Store :=
  match findUserByAddress users addrs address with
  | (_, _, some msg) => .error (.findUserError msg)
  | (some us, some ad, none) =>
      if ad.asset ≠ asset then .error (.assetMismatch ad.asset asset)
      else
        match processTransaction s us.id asset "deposit" amount transactionId address "" with
        | .error e => .error (.ledger e)
        | .ok (_, s2) => .ok s2
  | (_, _, none) => .error (.noUserFoundForAddress address)

/-- Commit semantics of Service.ProcessDeposit as seen by callers: on any
error nothing was committed. -/
def runServiceProcessDeposit (users : List UserRow) (addrs : List AddressRow) (s : Store)
    (address asset : String) (amount : Rat) (transactionId : String) : Store :=
  match serviceProcessDeposit users addrs s address asset amount transactionId with
  | .ok s2 => s2
  | .error _ => s

/-- Service.ProcessWithdrawal (internal/database/service.go:191-222): resolve
the user by id (GetUserById is not under src; modelled from the spec as a
lookup of the given user id), then record a subledger withdrawal of
amount.Neg() keyed by the given transaction id. -/
def serviceProcessWithdrawal (users : List UserRow) (s : Store)
    (userId asset : String) (amount : Rat) (transactionId : String) :
    Except ServiceError Store :=
  match users.find? (fun us => us.id == userId) with
  | none => .error (.userNotFoundById userId)
  | some us =>
      match processTransaction s us.id asset "withdrawal" (-amount) transactionId "" "" with
      | .error e => .error (.ledger e)
      | .ok (_, s2) => .ok s2

/-! ## API layer (internal/api) -/

/-- The Error field of DepositResult, tagged by the message the Go code puts
there; the listener dispatches on substrings of these messages. -/
inductive ApiError where
  | invalidParams
  | service (e : ServiceError)
  | lookupFailedAfter
deriving DecidableEq

/-- DepositResult (internal/api): the result value the API layer hands the
listener for both deposits and withdrawals. -/
structure ApiResult where
  success : Bool
  userId : String
  asset : String
  amount : Rat
  newBalance : Rat
  error : Option ApiError
deriving DecidableEq

def apiFailure (e : ApiError) : ApiResult := ⟨false, "", "", 0, 0, some e⟩

/-- strings.Contains(result.Error, "duplicate transaction"): neither
"invalid ... parameters" nor the lookup-failure messages contain it. -/
def apiErrorMentionsDuplicate : Option ApiError → Bool
  | some (.service e) => errMentionsDuplicate e
  | _ => false

/-- strings.Contains(result.Error, "no user found for address"). -/
def apiErrorMentionsNoUser : Option ApiError → Bool
  | some (.service e) => errMentionsNoUser e
  | _ => false

/-- LedgerService.ProcessWithdrawal (internal/api/withdrawals.go:13-103):
validate parameters, run the service withdrawal, then re-read the user and
the new balance for the result.  The function always returns a nil Go error;
failures are reported through the result value. -/
def apiProcessWithdrawal (users : List UserRow) (s : Store)
    (userId asset : String) (amount : Rat) (externalTxId : String) :
    ApiResult × Store :=
  if userId = "" ∨ asset = "" ∨ amount ≤ 0 ∨ externalTxId = "" then
    (apiFailure .invalidParams, s)
  else
    match serviceProcessWithdrawal users s userId asset amount externalTxId with
    | .error e => (apiFailure (.service e), s)
    | .ok s2 =>
        match (getUsers users).find? (fun us => us.id == userId) with
        | none => (apiFailure .lookupFailedAfter, s2)
        | some us =>
            (⟨true, us.id, asset, amount, getBalance s2 userId asset, none⟩, s2)

/-- LedgerService.ProcessDeposit (decimal version, src/unnamed/part_004):
validate parameters, run the service deposit, then re-read the user and the
new balance for the result. -/
def apiProcessDeposit (users : List UserRow) (addrs : List AddressRow) (s : Store)
    (address asset : String) (amount : Rat) (externalTxId : String) :
    ApiResult × Store :=
  if address = "" ∨ asset = "" ∨ amount ≤ 0 ∨ externalTxId = "" then
    (apiFailure .invalidParams, s)
  else
    match serviceProcessDeposit users addrs s address asset amount externalTxId with
    | .error e => (apiFailure (.service e), s)
    | .ok s2 =>
        match findUserByAddress users addrs address with
        | (some us, _, none) =>
            (⟨true, us.id, asset, amount, getBalance s2 us.id asset, none⟩, s2)
        | _ => (apiFailure .lookupFailedAfter, s2)

/-! ## Reconciler handlers (internal/listener) -/

/-- A custody transaction as the listener sees it
(models.PrimeTransaction).  The Amount field is a decimal string in the
source; here it is the exact rational decimal.NewFromString parses it to. -/
structure PrimeTx where
  id : String
  status : String
  symbol : String
  network : String
  amount : Rat
  idempotencyKey : String
  transferToAddress : String
  transferToAccountIdentifier : String
deriving DecidableEq

inductive ListenerOutcome where
  | skipped
  | handled
  | failed
deriving DecidableEq

/-- Result of one listener handler run: the committed store, the
processedTxIds cache (ids appended by markTransactionProcessed), and whether
the handler returned nil after handling, returned nil as a skip, or returned
an error. -/
structure ListenerResult where
  store : Store
  processedMarks : List String
  outcome : ListenerOutcome
deriving DecidableEq

/-- SendReceiveListener.processWithdrawal (decimal version,
src/unnamed/part_010:15-96): only TRANSACTION_DONE withdrawals are applied;
the amount is made non-negative and zero amounts are skipped; the user is
resolved from the idempotency-key first segment (errors skip without
marking); the ledger call passes tx.Id as the external transaction id; a
success or a duplicate error marks tx.Id processed. -/
def listenerProcessWithdrawal (users : List UserRow) (s : Store)
    (processed : List String) (tx : PrimeTx) (walletAssetNetwork : String) :
    ListenerResult :=
  if tx.status ≠ "TRANSACTION_DONE" then ⟨s, processed, .skipped⟩
  else
    let amount := if tx.amount < 0 then -tx.amount else tx.amount
    if amount ≤ 0 then ⟨s, processed, .skipped⟩
    else
      match findUserByIdemKey users tx.idempotencyKey with
      | .error _ => ⟨s, processed, .skipped⟩
      | .ok userId =>
          let pr := apiProcessWithdrawal users s userId walletAssetNetwork amount tx.id
          if pr.1.success then ⟨pr.2, processed ++ [tx.id], .handled⟩
          else if apiErrorMentionsDuplicate pr.1.error then
            ⟨pr.2, processed ++ [tx.id], .handled⟩
          else ⟨pr.2, processed, .failed⟩

/-- SendReceiveListener.processDeposit (decimal version,
internal/listener/deposit.go:15-123): only TRANSACTION_IMPORTED deposits are
applied; zero or negative amounts are skipped (returning nil before any
ledger call and before any markTransactionProcessed call); the lookup key is
account_identifier when non-empty, else the address, and an empty key skips;
a success, a duplicate error or an unknown-address error marks tx.Id
processed. -/
def listenerProcessDeposit (users : List UserRow) (addrs : List AddressRow) (s : Store)
    (processed : List String) (tx : PrimeTx) (walletAssetNetwork : String) :
    ListenerResult :=
  if tx.status ≠ "TRANSACTION_IMPORTED" then ⟨s, processed, .skipped⟩
  else if tx.amount ≤ 0 then ⟨s, processed, .skipped⟩
  else
    let lookupAddress := if tx.transferToAccountIdentifier ≠ "" then
      tx.transferToAccountIdentifier else tx.transferToAddress
    if lookupAddress = "" then ⟨s, processed, .skipped⟩
    else
      let pr := apiProcessDeposit users addrs s lookupAddress walletAssetNetwork tx.amount tx.id
      if pr.1.success then ⟨pr.2, processed ++ [tx.id], .handled⟩
      else if apiErrorMentionsDuplicate pr.1.error then
        ⟨pr.2, processed ++ [tx.id], .handled⟩
      else if apiErrorMentionsNoUser pr.1.error then
        ⟨pr.2, processed ++ [tx.id], .handled⟩
      else ⟨pr.2, processed, .failed⟩

/-! ## Helper lemmas -/

theorem filter_length_ne_zero {α} {p : α → Bool} {l : List α} {x : α}
    (hx : x ∈ l) (hp : p x = true) : (l.filter p).length ≠ 0 := by
  intro h
  rw [List.length_eq_zero] at h
  have hmem : x ∈ l.filter p := List.mem_filter.2 ⟨hx, hp⟩
  rw [h] at hmem
  exact (List.not_mem_nil x) hmem

theorem foldl_addJournalEntry_transactions (t : Txn) (rows : List JRow) :
    ∀ st : Store, ((rows.foldl (addJournalEntry t) st).transactions = st.transactions) := by
  induction rows with
  | nil => intro st; rfl
  | cons r rs ih =>
      intro st
      simpa [addJournalEntry, freshUuid] using ih (addJournalEntry t st r)

theorem foldl_addJournalEntry_balances (t : Txn) (rows : List JRow) :
    ∀ st : Store, ((rows.foldl (addJournalEntry t) st).balances = st.balances) := by
  induction rows with
  | nil => intro st; rfl
  | cons r rs ih =>
      intro st
      simpa [addJournalEntry, freshUuid] using ih (addJournalEntry t st r)

theorem addJournalEntries_transactions (st : Store) (t : Txn) :
    (addJournalEntries st t).transactions = st.transactions :=
  foldl_addJournalEntry_transactions t (journalRowsFor t) st

theorem addJournalEntries_balances (st : Store) (t : Txn) :
    (addJournalEntries st t).balances = st.balances :=
  foldl_addJournalEntry_balances t (journalRowsFor t) st

theorem findBalanceRow_addJournalEntries (st : Store) (t : Txn) (u a : String) :
    findBalanceRow (addJournalEntries st t) u a = findBalanceRow st u a := by
  unfold findBalanceRow
  rw [addJournalEntries_balances]

theorem getBalance_addJournalEntries (st : Store) (t : Txn) (u a : String) :
    getBalance (addJournalEntries st t) u a = getBalance st u a := by
  unfold getBalance
  rw [findBalanceRow_addJournalEntries]

theorem storedVersion_addJournalEntries (st : Store) (t : Txn) (u a : String) :
    storedVersion (addJournalEntries st t) u a = storedVersion st u a := by
  unfold storedVersion
  rw [findBalanceRow_addJournalEntries]

theorem txCount_addJournalEntries (st : Store) (t : Txn) (k : String) :
    txCountWithExternalId (addJournalEntries st t) k = txCountWithExternalId st k := by
  unfold txCountWithExternalId
  rw [addJournalEntries_transactions]

theorem findTxByExternalId_addJournalEntries (st : Store) (t : Txn) (k : String) :
    findTxByExternalId (addJournalEntries st t) k = findTxByExternalId st k := by
  unfold findTxByExternalId
  rw [addJournalEntries_transactions]

/-- The balance-row predicate is invariant under the CAS update function:
the update never changes user_id or asset. -/
theorem balancePred_casMap (u a : String) (v : Int) (newBalance : Rat) (txId : String)
    (b : AccountBalance) :
    ((fun b : AccountBalance => b.userId == u && b.asset == a)
      (if balanceRowMatches u a v b then
        { b with balance := newBalance, lastTransactionId := txId, version := b.version + 1 }
      else b)) =
    ((fun b : AccountBalance => b.userId == u && b.asset == a) b) := by
  by_cases h : balanceRowMatches u a v b <;> simp [h]

/-- The success shape of processTransactionBody when at least one balance row
passes the optimistic-lock WHERE clause (always the case in a sequential
run, where the version was read from the same store). -/
theorem processTransactionBody_spec (s : Store) (cur : Rat) (v : Int) (u a ty : String)
    (amt : Rat) (k addr ref : String)
    (hv : (s.balances.filter (balanceRowMatches u a v)).length ≠ 0) :
    ∃ t sMid, processTransactionBody s cur v u a ty amt k addr ref =
        .ok (t, addJournalEntries sMid t) ∧
      t = ⟨"uuid-" ++ toString s.uuidCounter, u, a, ty, amt, cur, cur + amt, k, addr, ref,
        "confirmed", s.clock⟩ ∧
      sMid = { s with uuidCounter := s.uuidCounter + 1,
                      transactions := s.transactions ++ [t],
                      clock := s.clock + 1,
                      balances := (casUpdateBalance s.balances (cur + amt) t.id u a v).1 } := by
  refine ⟨_, _, ?_, rfl, rfl⟩
  have hne : ¬(casUpdateBalance s.balances (cur + amt)
      ("uuid-" ++ toString s.uuidCounter) u a v).2 = 0 := by
    simpa [casUpdateBalance] using hv
  unfold processTransactionBody
  simp only [freshUuid]
  rw [if_neg hne]

/-- The success shape of the store-transaction part of ProcessTransaction:
in a sequential run it always succeeds, appends exactly one transaction row
whose balance fields are computed from the current balance, adds amount to
the stored balance, and bumps the stored version (to old + 1 for an existing
row, to 2 for a freshly created row). -/
theorem processTransactionTx_spec (s : Store) (u a ty : String) (amt : Rat)
    (k addr ref : String) :
    ∃ t sMid, processTransactionTx s u a ty amt k addr ref =
        .ok (t, addJournalEntries sMid t) ∧
      t.userId = u ∧ t.asset = a ∧ t.transactionType = ty ∧ t.amount = amt ∧
      t.externalTransactionId = k ∧ t.address = addr ∧ t.reference = ref ∧
      t.status = "confirmed" ∧
      t.balanceBefore = getBalance s u a ∧
      t.balanceAfter = getBalance s u a + amt ∧
      sMid.transactions = s.transactions ++ [t] ∧
      sMid.journal = s.journal ∧
      getBalance sMid u a = getBalance s u a + amt ∧
      storedVersion sMid u a =
        (if (findBalanceRow s u a).isSome then storedVersion s u a + 1 else 2) := by
  cases hb : findBalanceRow s u a with
  | some row =>
      have hb' : s.balances.find? (fun b => b.userId == u && b.asset == a) = some row := hb
      have hred : processTransactionTx s u a ty amt k addr ref =
          processTransactionBody s row.balance row.version u a ty amt k addr ref := by
        unfold processTransactionTx
        rw [hb]
      have hmem : row ∈ s.balances := List.mem_of_find?_eq_some hb'
      have hrowua : row.userId = u ∧ row.asset = a := by
        have h := List.find?_some hb'
        simp only [Bool.and_eq_true, beq_iff_eq] at h
        exact h
      have hrowu : row.userId = u := hrowua.1
      have hrowa : row.asset = a := hrowua.2
      have hmatch : balanceRowMatches u a row.version row = true := by
        simp [balanceRowMatches, hrowu, hrowa]
      have hv := filter_length_ne_zero hmem hmatch
      obtain ⟨t, sMid, hok, ht, hsMid⟩ :=
        processTransactionBody_spec s row.balance row.version u a ty amt k addr ref hv
      have hgb : getBalance s u a = row.balance := by
        simp [getBalance, hb]
      have hsv : storedVersion s u a = row.version := by
        simp [storedVersion, hb]
      refine ⟨t, sMid, hred.trans hok, ?_⟩
      subst ht
      have hcongr : ((fun b : AccountBalance => b.userId == u && b.asset == a) ∘
          (fun b : AccountBalance =>
            if balanceRowMatches u a row.version b then
              { b with balance := row.balance + amt,
                       lastTransactionId := "uuid-" ++ toString s.uuidCounter,
                       version := b.version + 1 }
            else b)) =
          (fun b : AccountBalance => b.userId == u && b.asset == a) := by
        funext b
        exact balancePred_casMap u a row.version (row.balance + amt)
          ("uuid-" ++ toString s.uuidCounter) b
      have hfind : findBalanceRow sMid u a = some
          { row with balance := row.balance + amt,
                     lastTransactionId := "uuid-" ++ toString s.uuidCounter,
                     version := row.version + 1 } := by
        rw [hsMid]
        unfold findBalanceRow
        simp only [casUpdateBalance]
        rw [List.find?_map, hcongr, hb']
        simp [hmatch]
      refine ⟨rfl, rfl, rfl, rfl, rfl, rfl, rfl, rfl, hgb.symm, by rw [hgb], ?_, ?_, ?_, ?_⟩
      · rw [hsMid]
      · rw [hsMid]
      · simp [getBalance, hfind, hb]
      · simp [storedVersion, hfind, hb]
  | none =>
      have hnone : s.balances.find? (fun b => b.userId == u && b.asset == a) = none := hb
      have hred : processTransactionTx s u a ty amt k addr ref =
          processTransactionBody
            { s with uuidCounter := s.uuidCounter + 1,
                     balances := s.balances ++
                       [⟨"uuid-" ++ toString s.uuidCounter, u, a, 0, "", 1⟩] }
            0 1 u a ty amt k addr ref := by
        unfold processTransactionTx
        rw [hb]
        rfl
      have hfresh : balanceRowMatches u a 1
          (⟨"uuid-" ++ toString s.uuidCounter, u, a, 0, "", 1⟩ : AccountBalance) = true := by
        simp [balanceRowMatches]
      have hmem : (⟨"uuid-" ++ toString s.uuidCounter, u, a, 0, "", 1⟩ : AccountBalance)
          ∈ ({ s with uuidCounter := s.uuidCounter + 1,
                      balances := s.balances ++
                        [⟨"uuid-" ++ toString s.uuidCounter, u, a, 0, "", 1⟩] } : Store).balances := by
        simp
      have hv := filter_length_ne_zero hmem hfresh
      obtain ⟨t, sMid, hok, ht, hsMid⟩ :=
        processTransactionBody_spec
          { s with uuidCounter := s.uuidCounter + 1,
                   balances := s.balances ++
                     [⟨"uuid-" ++ toString s.uuidCounter, u, a, 0, "", 1⟩] }
          0 1 u a ty amt k addr ref hv
      have hgb : getBalance s u a = 0 := by
        simp [getBalance, hb]
      refine ⟨t, sMid, hred.trans hok, ?_⟩
      subst ht
      have hcongr : ((fun b : AccountBalance => b.userId == u && b.asset == a) ∘
          (fun b : AccountBalance =>
            if balanceRowMatches u a 1 b then
              { b with balance := 0 + amt,
                       lastTransactionId := "uuid-" ++ toString (s.uuidCounter + 1),
                       version := b.version + 1 }
            else b)) =
          (fun b : AccountBalance => b.userId == u && b.asset == a) := by
        funext b
        exact balancePred_casMap u a 1 (0 + amt)
          ("uuid-" ++ toString (s.uuidCounter + 1)) b
      have hfind : findBalanceRow sMid u a = some
          (⟨"uuid-" ++ toString s.uuidCounter, u, a, 0 + amt,
            "uuid-" ++ toString (s.uuidCounter + 1), 2⟩ : AccountBalance) := by
        rw [hsMid]
        unfold findBalanceRow
        simp only [casUpdateBalance]
        rw [List.find?_map, hcongr]
        show ((s.balances ++ _).find? _).map _ = _
        rw [List.find?_append, hnone]
        simp [List.find?, hfresh]
      refine ⟨rfl, rfl, rfl, rfl, rfl, rfl, rfl, rfl, hgb.symm, by rw [hgb], ?_, ?_, ?_, ?_⟩
      · rw [hsMid]
      · rw [hsMid]
      · simp [getBalance, hfind, hb]
      · simp [storedVersion, hfind, hb]

/-- The success shape of ProcessTransaction when the duplicate check passes
(the external id is empty, or no transaction row carries it). -/
theorem processTransaction_spec (s : Store) (u a ty : String) (amt : Rat)
    (k addr ref : String)
    (hdup : k = "" ∨ findTxByExternalId s k = none) :
    ∃ t sMid, processTransaction s u a ty amt k addr ref =
        .ok (t, addJournalEntries sMid t) ∧
      t.userId = u ∧ t.asset = a ∧ t.transactionType = ty ∧ t.amount = amt ∧
      t.externalTransactionId = k ∧ t.address = addr ∧ t.reference = ref ∧
      t.status = "confirmed" ∧
      t.balanceBefore = getBalance s u a ∧
      t.balanceAfter = getBalance s u a + amt ∧
      sMid.transactions = s.transactions ++ [t] ∧
      sMid.journal = s.journal ∧
      getBalance sMid u a = getBalance s u a + amt ∧
      storedVersion sMid u a =
        (if (findBalanceRow s u a).isSome then storedVersion s u a + 1 else 2) := by
  obtain ⟨t, sMid, hok, hrest⟩ := processTransactionTx_spec s u a ty amt k addr ref
  refine ⟨t, sMid, ?_, hrest⟩
  unfold processTransaction
  rcases hdup with hk | hfind
  · rw [if_pos hk]
    exact hok
  · by_cases hk : k = ""
    · rw [if_pos hk]
      exact hok
    · rw [if_neg hk, hfind]
      exact hok

theorem addJournalEntries_deposit (st : Store) (t : Txn)
    (h : t.transactionType = "deposit") :
    (addJournalEntries st t).journal = st.journal ++
      [⟨"uuid-" ++ toString st.uuidCounter, t.id, "user_asset",
        t.userId ++ "_" ++ t.asset, t.amount, 0⟩,
       ⟨"uuid-" ++ toString (st.uuidCounter + 1), t.id, "system_liability",
        "user_deposits_" ++ t.asset, 0, t.amount⟩] := by
  simp [addJournalEntries, journalRowsFor, h, addJournalEntry, freshUuid]

theorem addJournalEntries_withdrawal (st : Store) (t : Txn)
    (h : t.transactionType = "withdrawal") :
    (addJournalEntries st t).journal = st.journal ++
      [⟨"uuid-" ++ toString st.uuidCounter, t.id, "user_asset",
        t.userId ++ "_" ++ t.asset, 0, -t.amount⟩,
       ⟨"uuid-" ++ toString (st.uuidCounter + 1), t.id, "system_liability",
        "user_deposits_" ++ t.asset, -t.amount, 0⟩] := by
  simp [addJournalEntries, journalRowsFor, h, addJournalEntry, freshUuid]

/-! ## Claim theorems -/

/-- C2: ProcessTransaction is idempotent with respect to a non-empty
external_transaction_id: starting from a store with no transaction row for
the key, the first call inserts exactly one transaction row carrying the
key, and a second call with the same key fails with the duplicate error
(carrying the first call's internal id), commits nothing, and leaves the
store unchanged. -/
theorem c2_processTransaction_idempotent_on_external_id
    (s : Store) (u a ty : String) (amt : Rat) (addr ref : String)
    (u2 a2 ty2 : String) (amt2 : Rat) (addr2 ref2 : String) (k : String)
    (hk : k ≠ "") (hfresh : findTxByExternalId s k = none) :
    ∃ t s2, processTransaction s u a ty amt k addr ref = .ok (t, s2) ∧
      s2.transactions = s.transactions ++ [t] ∧
      txCountWithExternalId s k = 0 ∧
      txCountWithExternalId s2 k = 1 ∧
      processTransaction s2 u2 a2 ty2 amt2 k addr2 ref2 =
        .error (.duplicateTransaction k t.id) ∧
      runProcessTransaction s2 u2 a2 ty2 amt2 k addr2 ref2 = (s2, none) := by
  obtain ⟨t, sMid, hok, hu, ha, hty, hamt, hext, haddr, href, hstat, hbB, hbA, htr, hj,
    hgb, hsv⟩ := processTransaction_spec s u a ty amt k addr ref (Or.inr hfresh)
  have hfresh' : s.transactions.find? (fun x => x.externalTransactionId == k) = none := hfresh
  have hall : ∀ x ∈ s.transactions, ¬(x.externalTransactionId == k) = true :=
    List.find?_eq_none.1 hfresh'
  have hs2trans : (addJournalEntries sMid t).transactions = s.transactions ++ [t] := by
    rw [addJournalEntries_transactions, htr]
  have hc0 : txCountWithExternalId s k = 0 := by
    unfold txCountWithExternalId
    rw [List.length_eq_zero, List.filter_eq_nil_iff]
    exact hall
  have hc1 : txCountWithExternalId (addJournalEntries sMid t) k = 1 := by
    unfold txCountWithExternalId
    rw [hs2trans, List.filter_append]
    have h1 : s.transactions.filter (fun x => x.externalTransactionId == k) = [] :=
      List.filter_eq_nil_iff.2 hall
    rw [h1]
    simp [hext]
  have hfind2 : findTxByExternalId (addJournalEntries sMid t) k = some t := by
    unfold findTxByExternalId
    rw [hs2trans, List.find?_append, hfresh']
    simp [List.find?, hext]
  have hdup2 : processTransaction (addJournalEntries sMid t) u2 a2 ty2 amt2 k addr2 ref2 =
      .error (.duplicateTransaction k t.id) := by
    unfold processTransaction
    rw [if_neg hk, hfind2]
  refine ⟨t, addJournalEntries sMid t, hok, hs2trans, hc0, hc1, hdup2, ?_⟩
  unfold runProcessTransaction
  rw [hdup2]

/-- C2 witness: a concrete instance of the idempotency theorem. -/
theorem c2_witness :
    ∃ t s2, processTransaction emptyStore "u1" "BTC" "deposit" 5 "ext-1" "0xabc" "" =
        .ok (t, s2) ∧
      s2.transactions = emptyStore.transactions ++ [t] ∧
      txCountWithExternalId emptyStore "ext-1" = 0 ∧
      txCountWithExternalId s2 "ext-1" = 1 ∧
      processTransaction s2 "u1" "BTC" "deposit" 7 "ext-1" "0xabc" "" =
        .error (.duplicateTransaction "ext-1" t.id) ∧
      runProcessTransaction s2 "u1" "BTC" "deposit" 7 "ext-1" "0xabc" "" = (s2, none) :=
  c2_processTransaction_idempotent_on_external_id emptyStore "u1" "BTC" "deposit" 5
    "0xabc" "" "u1" "BTC" "deposit" 7 "0xabc" "" "ext-1" (by decide) rfl

/-- C4: every successful ProcessTransaction records balance_before equal to
the current stored balance, balance_after = balance_before + amount, and
stores balance_before + amount as the new balance, with no lower bound on
the result (the call succeeds for every amount, negative outcomes
included). -/
theorem c4_balance_equation_no_lower_bound
    (s : Store) (u a ty : String) (amt : Rat) (k addr ref : String)
    (hdup : k = "" ∨ findTxByExternalId s k = none) :
    ∃ t s2, processTransaction s u a ty amt k addr ref = .ok (t, s2) ∧
      t.balanceBefore = getBalance s u a ∧
      t.amount = amt ∧
      t.balanceAfter = t.balanceBefore + t.amount ∧
      getBalance s2 u a = getBalance s u a + amt := by
  obtain ⟨t, sMid, hok, hu, ha, hty, hamt, hext, haddr, href, hstat, hbB, hbA, htr, hj,
    hgb, hsv⟩ := processTransaction_spec s u a ty amt k addr ref hdup
  refine ⟨t, addJournalEntries sMid t, hok, hbB, hamt, ?_, ?_⟩
  · rw [hbA, hbB, hamt]
  · rw [getBalance_addJournalEntries, hgb]

/-- C4 witness: a deposit of -5 into an empty account succeeds and drives
the stored balance negative. -/
theorem c4_witness :
    (-5 : Rat) < 0 ∧
    ∃ t s2, processTransaction emptyStore "u1" "BTC" "withdrawal" (-5) "ext-2" "" "" =
        .ok (t, s2) ∧
      t.balanceBefore = getBalance emptyStore "u1" "BTC" ∧
      t.amount = -5 ∧
      t.balanceAfter = t.balanceBefore + t.amount ∧
      getBalance s2 "u1" "BTC" = getBalance emptyStore "u1" "BTC" + (-5) :=
  ⟨by norm_num,
   c4_balance_equation_no_lower_bound emptyStore "u1" "BTC" "withdrawal" (-5) "ext-2" "" ""
     (Or.inr rfl)⟩

/-- C5: every committed deposit or withdrawal emits exactly two journal
entries — one on the user_asset account and one on the system_liability
account — whose total debits equal total credits. -/
theorem c5_journal_entries_balanced
    (s : Store) (u a ty : String) (amt : Rat) (k addr ref : String)
    (hdup : k = "" ∨ findTxByExternalId s k = none)
    (hty : ty = "deposit" ∨ ty = "withdrawal") :
    ∃ t s2 e1 e2, processTransaction s u a ty amt k addr ref = .ok (t, s2) ∧
      s2.journal = s.journal ++ [e1, e2] ∧
      e1.transactionId = t.id ∧ e2.transactionId = t.id ∧
      e1.accountType = "user_asset" ∧ e1.accountId = t.userId ++ "_" ++ t.asset ∧
      e2.accountType = "system_liability" ∧ e2.accountId = "user_deposits_" ++ t.asset ∧
      e1.debitAmount + e2.debitAmount = e1.creditAmount + e2.creditAmount := by
  obtain ⟨t, sMid, hok, hu, ha, hty', hamt, hext, haddr, href, hstat, hbB, hbA, htr, hj,
    hgb, hsv⟩ := processTransaction_spec s u a ty amt k addr ref hdup
  rcases hty with h | h
  · have htt : t.transactionType = "deposit" := by rw [hty', h]
    have hjr := addJournalEntries_deposit sMid t htt
    refine ⟨t, addJournalEntries sMid t,
      ⟨"uuid-" ++ toString sMid.uuidCounter, t.id, "user_asset",
        t.userId ++ "_" ++ t.asset, t.amount, 0⟩,
      ⟨"uuid-" ++ toString (sMid.uuidCounter + 1), t.id, "system_liability",
        "user_deposits_" ++ t.asset, 0, t.amount⟩,
      hok, ?_, rfl, rfl, rfl, rfl, rfl, rfl, ?_⟩
    · rw [hjr, hj]
    · ring
  · have htt : t.transactionType = "withdrawal" := by rw [hty', h]
    have hjr := addJournalEntries_withdrawal sMid t htt
    refine ⟨t, addJournalEntries sMid t,
      ⟨"uuid-" ++ toString sMid.uuidCounter, t.id, "user_asset",
        t.userId ++ "_" ++ t.asset, 0, -t.amount⟩,
      ⟨"uuid-" ++ toString (sMid.uuidCounter + 1), t.id, "system_liability",
        "user_deposits_" ++ t.asset, -t.amount, 0⟩,
      hok, ?_, rfl, rfl, rfl, rfl, rfl, rfl, ?_⟩
    · rw [hjr, hj]
    · ring

/-- C5 witness: a concrete withdrawal emits the two balanced journal rows. -/
theorem c5_witness :
    ∃ t s2 e1 e2,
      processTransaction emptyStore "u1" "BTC" "withdrawal" (-3) "ext-3" "" "" =
        .ok (t, s2) ∧
      s2.journal = emptyStore.journal ++ [e1, e2] ∧
      e1.transactionId = t.id ∧ e2.transactionId = t.id ∧
      e1.accountType = "user_asset" ∧ e1.accountId = t.userId ++ "_" ++ t.asset ∧
      e2.accountType = "system_liability" ∧ e2.accountId = "user_deposits_" ++ t.asset ∧
      e1.debitAmount + e2.debitAmount = e1.creditAmount + e2.creditAmount :=
  c5_journal_entries_balanced emptyStore "u1" "BTC" "withdrawal" (-3) "ext-3" "" ""
    (Or.inr rfl) (Or.inr rfl)

/-- C3: the balance UPDATE is guarded by the version read at the start —
a row is counted as affected exactly when its (user_id, asset, version)
matches; when zero rows are affected the call fails with the
concurrent-modification error; and any failing ProcessTransaction commits
nothing (no transaction row, no journal entry, no balance change). -/
theorem c3_optimistic_locking_rollback :
    (∀ (bals : List AccountBalance) (nb : Rat) (tid u a : String) (v : Int),
      (casUpdateBalance bals nb tid u a v).2 = 0 ↔
        ∀ b ∈ bals, balanceRowMatches u a v b = false) ∧
    (∀ (s : Store) (cur : Rat) (v : Int) (u a ty : String) (amt : Rat)
        (k addr ref : String),
      (∀ b ∈ s.balances, balanceRowMatches u a v b = false) →
      processTransactionBody s cur v u a ty amt k addr ref =
        .error .concurrentModification) ∧
    (∀ (s : Store) (u a ty : String) (amt : Rat) (k addr ref : String)
        (e : LedgerError),
      processTransaction s u a ty amt k addr ref = .error e →
      runProcessTransaction s u a ty amt k addr ref = (s, none)) := by
  refine ⟨?_, ?_, ?_⟩
  · intro bals nb tid u a v
    simp only [casUpdateBalance, List.length_eq_zero, List.filter_eq_nil_iff]
    constructor
    · intro h b hb
      exact Bool.not_eq_true _ ▸ (by simpa using h b hb)
    · intro h b hb
      simp [h b hb]
  · intro s cur v u a ty amt k addr ref h
    have hz : (s.balances.filter (balanceRowMatches u a v)).length = 0 := by
      rw [List.length_eq_zero, List.filter_eq_nil_iff]
      intro b hb
      simp [h b hb]
    unfold processTransactionBody
    simp only [freshUuid]
    rw [if_pos]
    simpa [casUpdateBalance] using hz
  · intro s u a ty amt k addr ref e h
    unfold runProcessTransaction
    rw [h]

/-- C3 witness: with a stored version of 5 and a read version of 3 the CAS
affects zero rows and the body fails; a duplicate-key call errors and
commits nothing. -/
theorem c3_witness :
    ((casUpdateBalance [(⟨"b1", "u1", "BTC", 7, "", 5⟩ : AccountBalance)] 9 "t9"
        "u1" "BTC" 3).2 = 0) ∧
    (processTransactionBody
        { emptyStore with balances := [⟨"b1", "u1", "BTC", 7, "", 5⟩] } 7 3
        "u1" "BTC" "withdrawal" (-2) "k1" "" "" = .error .concurrentModification) ∧
    (runProcessTransaction
        { emptyStore with
            transactions :=
              [⟨"t1", "u1", "BTC", "deposit", 5, 0, 5, "k1", "", "", "confirmed", 0⟩] }
        "u1" "BTC" "deposit" 5 "k1" "" "" =
      ({ emptyStore with
            transactions :=
              [⟨"t1", "u1", "BTC", "deposit", 5, 0, 5, "k1", "", "", "confirmed", 0⟩] },
        none)) := by
  refine ⟨?_, ?_, ?_⟩
  · exact (c3_optimistic_locking_rollback.1 _ 9 "t9" "u1" "BTC" 3).2 (by decide)
  · exact c3_optimistic_locking_rollback.2.1 _ 7 3 "u1" "BTC" "withdrawal" (-2) "k1" "" ""
      (by decide)
  · exact c3_optimistic_locking_rollback.2.2 _ "u1" "BTC" "deposit" 5 "k1" "" ""
      (.duplicateTransaction "k1" "t1") rfl

/-- C6 (amended): a successful ProcessTransaction on an existing
account-balance row bumps its version by exactly 1; on an absent row the
fresh row is created with version 1 and the same mutation bumps it to 2, so
the stored version after the first mutation on an absent (user, asset) is 2;
in both cases the stored version strictly increases (a missing row reading
as version 0). -/
theorem c6_amended_version_semantics
    (s : Store) (u a ty : String) (amt : Rat) (k addr ref : String)
    (hdup : k = "" ∨ findTxByExternalId s k = none) :
    ∃ t s2, processTransaction s u a ty amt k addr ref = .ok (t, s2) ∧
      storedVersion s2 u a =
        (if (findBalanceRow s u a).isSome then storedVersion s u a + 1 else 2) ∧
      storedVersion s u a < storedVersion s2 u a := by
  obtain ⟨t, sMid, hok, hu, ha, hty, hamt, hext, haddr, href, hstat, hbB, hbA, htr, hj,
    hgb, hsv⟩ := processTransaction_spec s u a ty amt k addr ref hdup
  have hsv2 : storedVersion (addJournalEntries sMid t) u a =
      (if (findBalanceRow s u a).isSome then storedVersion s u a + 1 else 2) := by
    rw [storedVersion_addJournalEntries, hsv]
  refine ⟨t, addJournalEntries sMid t, hok, hsv2, ?_⟩
  rw [hsv2]
  cases hfb : findBalanceRow s u a with
  | some row => simp [lt_add_one]
  | none =>
      have h0 : storedVersion s u a = 0 := by simp [storedVersion, hfb]
      rw [h0]
      norm_num

/-- C6 witness: the amended version law at a concrete deposit on an
existing row of version 1. -/
theorem c6_witness :
    ∃ t s2, processTransaction
        { emptyStore with balances := [⟨"b1", "u1", "BTC", 4, "", 1⟩] }
        "u1" "BTC" "deposit" 5 "ext-6" "" "" = .ok (t, s2) ∧
      storedVersion s2 "u1" "BTC" =
        (if (findBalanceRow { emptyStore with balances := [⟨"b1", "u1", "BTC", 4, "", 1⟩] }
            "u1" "BTC").isSome then
          storedVersion { emptyStore with balances := [⟨"b1", "u1", "BTC", 4, "", 1⟩] }
            "u1" "BTC" + 1
        else 2) ∧
      storedVersion { emptyStore with balances := [⟨"b1", "u1", "BTC", 4, "", 1⟩] }
          "u1" "BTC" <
        storedVersion s2 "u1" "BTC" :=
  c6_amended_version_semantics
    { emptyStore with balances := [⟨"b1", "u1", "BTC", 4, "", 1⟩] }
    "u1" "BTC" "deposit" 5 "ext-6" "" "" (Or.inr rfl)

/-- The store committed by the first ProcessTransaction on an empty store. -/
def c6FirstMutation : Store :=
  (runProcessTransaction emptyStore "u1" "BTC" "deposit" 5 "ext-1" "" "").1

/-- C6 counterexample: the claim reads a missing row as balance 0, version 0
and every mutation as incrementing the version by exactly 1, so after the
first ProcessTransaction on a previously absent (user, asset) the stored
version would be 1; the code creates the fresh row with version 1 and then
bumps it in the UPDATE, leaving version 2. -/
theorem c6_counterexample :
    findBalanceRow emptyStore "u1" "BTC" = none ∧
    storedVersion c6FirstMutation "u1" "BTC" = 2 ∧
    storedVersion c6FirstMutation "u1" "BTC" ≠
      storedVersion emptyStore "u1" "BTC" + 1 := by
  refine ⟨rfl, ?_, ?_⟩ <;>
    simp [c6FirstMutation, runProcessTransaction, processTransaction, processTransactionTx,
      processTransactionBody, findTxByExternalId, findBalanceRow, freshUuid,
      casUpdateBalance, balanceRowMatches, addJournalEntries, journalRowsFor,
      addJournalEntry, storedVersion, emptyStore]

theorem mem_insertByCreatedAtDesc {y t : Txn} :
    ∀ {l : List Txn}, y ∈ insertByCreatedAtDesc t l ↔ y = t ∨ y ∈ l := by
  intro l
  induction l with
  | nil => simp [insertByCreatedAtDesc]
  | cons x xs ih =>
      simp only [insertByCreatedAtDesc]
      by_cases h : x.createdAt ≤ t.createdAt
      · simp [h, List.mem_cons]
        try tauto
      · simp [h, List.mem_cons, ih]
        try tauto

theorem pairwise_insertByCreatedAtDesc (t : Txn) :
    ∀ l : List Txn, l.Pairwise (fun x y => y.createdAt ≤ x.createdAt) →
    (insertByCreatedAtDesc t l).Pairwise (fun x y => y.createdAt ≤ x.createdAt) := by
  intro l
  induction l with
  | nil =>
      intro _
      simp [insertByCreatedAtDesc]
  | cons x xs ih =>
      intro hp
      rw [List.pairwise_cons] at hp
      obtain ⟨hx, hxs⟩ := hp
      simp only [insertByCreatedAtDesc]
      by_cases h : x.createdAt ≤ t.createdAt
      · rw [if_pos h, List.pairwise_cons]
        refine ⟨?_, ?_⟩
        · intro y hy
          rcases List.mem_cons.1 hy with rfl | hy'
          · exact h
          · exact le_trans (hx y hy') h
        · rw [List.pairwise_cons]
          exact ⟨hx, hxs⟩
      · rw [if_neg h, List.pairwise_cons]
        refine ⟨?_, ih hxs⟩
        intro y hy
        rcases mem_insertByCreatedAtDesc.1 hy with rfl | hy'
        · exact le_of_not_le h
        · exact hx y hy'

theorem pairwise_sortByCreatedAtDesc (l : List Txn) :
    (sortByCreatedAtDesc l).Pairwise (fun x y => y.createdAt ≤ x.createdAt) := by
  unfold sortByCreatedAtDesc
  induction l with
  | nil => simp
  | cons x xs ih => exact pairwise_insertByCreatedAtDesc x _ ih

theorem length_insertByCreatedAtDesc (t : Txn) :
    ∀ l : List Txn, (insertByCreatedAtDesc t l).length = l.length + 1 := by
  intro l
  induction l with
  | nil => rfl
  | cons x xs ih =>
      simp only [insertByCreatedAtDesc]
      by_cases h : x.createdAt ≤ t.createdAt
      · rw [if_pos h]
        rfl
      · rw [if_neg h]
        simp [ih]

theorem length_sortByCreatedAtDesc (l : List Txn) :
    (sortByCreatedAtDesc l).length = l.length := by
  unfold sortByCreatedAtDesc
  induction l with
  | nil => rfl
  | cons x xs ih =>
      simp only [List.foldr_cons]
      rw [length_insertByCreatedAtDesc, ih, List.length_cons]

/-- C7 (amended): the subledger GetTransactionHistory returns the matching
transactions ordered by created_at descending, but passes the caller's limit
and offset into the SQL unchanged, with no clamping; the API-layer wrapper
replaces a limit outside [1, 100] by the default 20 (and a negative offset
by 0), so the API-layer effective limit always lies in [1, 100]. -/
theorem c7_amended_history_ordering_and_api_default
    (s : Store) (u a : String) (lim off : Int) :
    (getTransactionHistory s u a lim off).Pairwise
      (fun x y => y.createdAt ≤ x.createdAt) ∧
    1 ≤ apiEffectiveLimit lim ∧ apiEffectiveLimit lim ≤ 100 ∧
    (u ≠ "" → a ≠ "" →
      apiGetTransactionHistory s u a lim off =
        .ok ((getTransactionHistory s u a (apiEffectiveLimit lim)
          (apiEffectiveOffset off)).map toTransactionRecord)) := by
  refine ⟨?_, ?_, ?_, ?_⟩
  · unfold getTransactionHistory
    have hsorted := pairwise_sortByCreatedAtDesc
      (s.transactions.filter (fun t => t.userId == u && t.asset == a))
    have hdrop : (sqlOffset off (sortByCreatedAtDesc
        (s.transactions.filter (fun t => t.userId == u && t.asset == a)))).Pairwise
        (fun x y => y.createdAt ≤ x.createdAt) :=
      List.Pairwise.sublist (List.drop_sublist _ _) hsorted
    unfold sqlLimit
    by_cases h : lim < 0
    · rw [if_pos h]
      exact hdrop
    · rw [if_neg h]
      exact List.Pairwise.sublist (List.take_sublist _ _) hdrop
  · unfold apiEffectiveLimit
    by_cases h : lim ≤ 0 ∨ lim > 100
    · rw [if_pos h]
      norm_num
    · rw [if_neg h]
      omega
  · unfold apiEffectiveLimit
    by_cases h : lim ≤ 0 ∨ lim > 100
    · rw [if_pos h]
      norm_num
    · rw [if_neg h]
      omega
  · intro hu ha
    unfold apiGetTransactionHistory
    rw [if_neg]
    intro hor
    rcases hor with h | h
    · exact hu h
    · exact ha h

/-- C7 amended witness: a concrete instance of the history theorem. -/
theorem c7_witness :
    (getTransactionHistory emptyStore "u1" "BTC" 500 0).Pairwise
      (fun x y => y.createdAt ≤ x.createdAt) ∧
    1 ≤ apiEffectiveLimit 500 ∧ apiEffectiveLimit 500 ≤ 100 ∧
    ("u1" ≠ "" → "BTC" ≠ "" →
      apiGetTransactionHistory emptyStore "u1" "BTC" 500 0 =
        .ok ((getTransactionHistory emptyStore "u1" "BTC" (apiEffectiveLimit 500)
          (apiEffectiveOffset 0)).map toTransactionRecord)) :=
  c7_amended_history_ordering_and_api_default emptyStore "u1" "BTC" 500 0

/-- A transaction row used by the C7 counterexample. -/
def c7Txn (n : Nat) : Txn :=
  ⟨"t" ++ toString n, "u1", "BTC", "deposit", 1, 0, 1, "", "", "", "confirmed", n⟩

/-- A store holding 101 transactions of one (user, asset). -/
def c7Store : Store :=
  { emptyStore with transactions := (List.range 101).map c7Txn }

/-- C7 counterexample: the claim clamps the effective limit of
GetTransactionHistory to [1, 100] for every caller-supplied limit, which
bounds every result by 100 rows; the subledger function passes limit = 101
straight into the SQL and returns 101 rows. -/
theorem c7_counterexample :
    (getTransactionHistory c7Store "u1" "BTC" 101 0).length = 101 ∧
    ¬ (getTransactionHistory c7Store "u1" "BTC" 101 0).length ≤ 100 := by
  have hfilter : c7Store.transactions.filter
      (fun t => t.userId == "u1" && t.asset == "BTC") = c7Store.transactions := by
    rw [List.filter_eq_self]
    intro x hx
    simp only [c7Store, List.mem_map] at hx
    obtain ⟨n, _, rfl⟩ := hx
    simp [c7Txn]
  have hlen : (getTransactionHistory c7Store "u1" "BTC" 101 0).length = 101 := by
    unfold getTransactionHistory sqlLimit sqlOffset
    rw [if_neg (by norm_num)]
    rw [hfilter]
    simp only [Int.toNat_zero, List.drop_zero, List.length_take,
      length_sortByCreatedAtDesc]
    simp [c7Store]
  exact ⟨hlen, by rw [hlen]; norm_num⟩

/-- C8 (amended): a deposit whose parsed amount is zero or negative is
skipped: the handler returns nil before any ledger call, so no transaction
row is written and no balance changes — and it returns before any
markTransactionProcessed call, so the transaction id is NOT marked
processed. -/
theorem c8_amended_nonpositive_deposit_skipped_without_marking
    (users : List UserRow) (addrs : List AddressRow) (s : Store)
    (processed : List String) (tx : PrimeTx) (wan : String)
    (h1 : tx.status = "TRANSACTION_IMPORTED") (h2 : tx.amount ≤ 0) :
    listenerProcessDeposit users addrs s processed tx wan =
      ⟨s, processed, .skipped⟩ := by
  unfold listenerProcessDeposit
  rw [if_neg (not_not_intro h1), if_pos h2]

/-- A zero-amount imported deposit used by the C8 counterexample. -/
def c8Tx : PrimeTx :=
  ⟨"dep0", "TRANSACTION_IMPORTED", "ETH", "ethereum-mainnet", 0, "", "0xabc", ""⟩

/-- C8 counterexample: the claim says a zero-amount deposit is skipped AND
its transaction id marked processed; the handler skips without calling the
subledger but leaves the processed cache untouched ("dep0" is not marked). -/
theorem c8_counterexample :
    listenerProcessDeposit [] [] emptyStore [] c8Tx "ETH" =
      ⟨emptyStore, [], .skipped⟩ ∧
    "dep0" ∉ (listenerProcessDeposit [] [] emptyStore [] c8Tx "ETH").processedMarks := by
  have h : listenerProcessDeposit [] [] emptyStore [] c8Tx "ETH" =
      ⟨emptyStore, [], .skipped⟩ := by
    unfold listenerProcessDeposit
    rw [if_neg (by simp [c8Tx]), if_pos (by simp [c8Tx])]
  refine ⟨h, ?_⟩
  rw [h]
  simp

/-- C8 witness: the amended skip law applied to the concrete zero-amount
deposit. -/
theorem c8_witness :
    listenerProcessDeposit [⟨"u1", "A", "a@x", true⟩] [] emptyStore ["old"] c8Tx "ETH" =
      ⟨emptyStore, ["old"], .skipped⟩ :=
  c8_amended_nonpositive_deposit_skipped_without_marking
    [⟨"u1", "A", "a@x", true⟩] [] emptyStore ["old"] c8Tx "ETH" rfl (by norm_num [c8Tx])

/-- C9: findUserByIdempotencyKeyPrefix rejects an empty key, errors when no
active user's id shares the key's first hyphen-separated segment, and when
it succeeds it returns the first matching user's id, whose first segment
equals the key's first segment. -/
theorem c9_idem_key_first_segment (users : List UserRow) (key : String) :
    (∀ uid, findUserByIdemKey users key = .ok uid →
      goFirstSegment key = goFirstSegment uid) ∧
    (key = "" → findUserByIdemKey users key = .error .emptyKey) ∧
    (∀ uid, findUserByIdemKey users key = .ok uid →
      ∃ us, (getUsers users).find?
          (fun v => goFirstSegment v.id == goFirstSegment key) = some us ∧
        uid = us.id) ∧
    (key ≠ "" →
      (getUsers users).find? (fun v => goFirstSegment v.id == goFirstSegment key) = none →
      findUserByIdemKey users key = .error .noMatch) := by
  refine ⟨?_, ?_, ?_, ?_⟩
  · intro uid h
    unfold findUserByIdemKey at h
    by_cases hk : key = ""
    · rw [if_pos hk] at h
      exact absurd h (by simp)
    · rw [if_neg hk] at h
      cases hfind : (getUsers users).find?
          (fun v => goFirstSegment v.id == goFirstSegment key) with
      | none =>
          rw [hfind] at h
          exact absurd h (by simp)
      | some us =>
          rw [hfind] at h
          simp only [Except.ok.injEq] at h
          subst h
          have hbeq := List.find?_some hfind
          exact (eq_of_beq (by simpa using hbeq)).symm
  · intro hk
    unfold findUserByIdemKey
    rw [if_pos hk]
  · intro uid h
    unfold findUserByIdemKey at h
    by_cases hk : key = ""
    · rw [if_pos hk] at h
      exact absurd h (by simp)
    · rw [if_neg hk] at h
      cases hfind : (getUsers users).find?
          (fun v => goFirstSegment v.id == goFirstSegment key) with
      | none =>
          rw [hfind] at h
          exact absurd h (by simp)
      | some us =>
          rw [hfind] at h
          simp only [Except.ok.injEq] at h
          exact ⟨us, rfl, h.symm⟩
  · intro hk hfind
    unfold findUserByIdemKey
    rw [if_neg hk, hfind]

/-- C9 witness: concrete instances of the three behaviours. -/
theorem c9_witness :
    goFirstSegment "abcd-1111" = goFirstSegment "abcd-9999" ∧
    findUserByIdemKey ([] : List UserRow) "" = .error .emptyKey ∧
    findUserByIdemKey [⟨"zzzz-1", "C", "c@x", true⟩] "abcd-1111" = .error .noMatch :=
  ⟨(c9_idem_key_first_segment [⟨"abcd-9999", "B", "b@x", true⟩] "abcd-1111").1
      "abcd-9999" (by simp [findUserByIdemKey, getUsers, goFirstSegment]),
   (c9_idem_key_first_segment ([] : List UserRow) "").2.1 rfl,
   (c9_idem_key_first_segment [⟨"zzzz-1", "C", "c@x", true⟩] "abcd-1111").2.2.2
      (by decide) (by simp [getUsers, goFirstSegment])⟩

/-- C10: when no address row matches the lookup key, FindUserByAddress
returns the Go triple (nil, nil, nil) — a silent not-found with a nil error
— and Service.ProcessDeposit turns the nil user into the
"no user found for address" error before any subledger call, committing
nothing. -/
theorem c10_unknown_address_silent_notfound
    (users : List UserRow) (addrs : List AddressRow) (s : Store)
    (key asset : String) (amt : Rat) (txId : String)
    (h : ∀ ad ∈ addrs, addrMatchesKey key ad = false) :
    findUserByAddress users addrs key = (none, none, none) ∧
    serviceProcessDeposit users addrs s key asset amt txId =
      .error (.noUserFoundForAddress key) ∧
    runServiceProcessDeposit users addrs s key asset amt txId = s := by
  have hfm : addrs.filterMap (fun ad =>
      if addrMatchesKey key ad then
        (users.find? (fun us => us.id == ad.userId && us.active)).map
          (fun us => (us, ad))
      else none) = [] := by
    rw [List.filterMap_eq_nil_iff]
    intro ad had
    rw [h ad had]
    simp
  have h1 : findUserByAddress users addrs key = (none, none, none) := by
    unfold findUserByAddress
    rw [hfm]
    rfl
  have h2 : serviceProcessDeposit users addrs s key asset amt txId =
      .error (.noUserFoundForAddress key) := by
    unfold serviceProcessDeposit
    rw [h1]
  refine ⟨h1, h2, ?_⟩
  unfold runServiceProcessDeposit
  rw [h2]

/-- C10 witness: a deposit to an address no row matches errors out and
leaves the store untouched. -/
theorem c10_witness :
    findUserByAddress [⟨"u1", "A", "a@x", true⟩]
      [⟨"ad1", "u1", "ETH", "ethereum-mainnet", "0xabc", "w1", ""⟩] "0xzzz" =
      (none, none, none) ∧
    serviceProcessDeposit [⟨"u1", "A", "a@x", true⟩]
      [⟨"ad1", "u1", "ETH", "ethereum-mainnet", "0xabc", "w1", ""⟩]
      emptyStore "0xzzz" "ETH" 5 "tx9" =
      .error (.noUserFoundForAddress "0xzzz") ∧
    runServiceProcessDeposit [⟨"u1", "A", "a@x", true⟩]
      [⟨"ad1", "u1", "ETH", "ethereum-mainnet", "0xabc", "w1", ""⟩]
      emptyStore "0xzzz" "ETH" 5 "tx9" = emptyStore :=
  c10_unknown_address_silent_notfound [⟨"u1", "A", "a@x", true⟩]
    [⟨"ad1", "u1", "ETH", "ethereum-mainnet", "0xabc", "w1", ""⟩]
    emptyStore "0xzzz" "ETH" 5 "tx9" (by decide)

/-- The user of the spec's scenario 4. -/
def c1User : UserRow := ⟨"abcd1234-aaaa-bbbb-cccc-dddd", "Alice", "alice@example.com", true⟩

/-- The idempotency key minted by the Withdrawal Initiator: the user id's
first segment followed by fresh random segments. -/
def c1IdemKey : String := "abcd1234-2222-3333-4444-5555"

/-- Scenario 4 start state: the user holds 3 ETH. -/
def c1InitStore : Store :=
  { emptyStore with
      balances := [⟨"bal1", "abcd1234-aaaa-bbbb-cccc-dddd", "ETH", 3, "", 1⟩] }

/-- The store after the Withdrawal Initiator's pre-debit of 1
(cmd/withdrawal/main.go:202-226), which passes the idempotency key as the
external transaction id. -/
def c1PreDebited : Store :=
  match serviceProcessWithdrawal [c1User] c1InitStore "abcd1234-aaaa-bbbb-cccc-dddd"
      "ETH" 1 c1IdemKey with
  | .ok s2 => s2
  | .error _ => c1InitStore

/-- The completed custody withdrawal the reconciler later observes: custody
id "tx3", carrying the minted idempotency key. -/
def c1Tx : PrimeTx :=
  ⟨"tx3", "TRANSACTION_DONE", "ETH", "ethereum-mainnet", 1, c1IdemKey, "", ""⟩

/-- The reconciler's handling of that withdrawal
(src/unnamed/part_010: apiService.ProcessWithdrawal is called with tx.Id). -/
def c1Final : ListenerResult :=
  listenerProcessWithdrawal [c1User] c1PreDebited [] c1Tx "ETH"

/-- C1 evaluated at the failing input: after the pre-debit (balance 2, one
transaction row keyed by the idempotency key), the reconciler hands the
subledger's duplicate check the custody id "tx3" — which differs from the
idempotency key — so the pre-debit is not recognized as a duplicate: the
handler reports success, a second withdrawal row keyed "tx3" is committed,
and the balance falls to 1 instead of staying at 2. -/
theorem c1_code_bug_reconciler_dedupe_key :
    getBalance c1PreDebited "abcd1234-aaaa-bbbb-cccc-dddd" "ETH" = 2 ∧
    txCountWithExternalId c1PreDebited c1IdemKey = 1 ∧
    c1Tx.id ≠ c1Tx.idempotencyKey ∧
    c1Final.outcome = .handled ∧
    c1Final.store.transactions.length = 2 ∧
    txCountWithExternalId c1Final.store "tx3" = 1 ∧
    getBalance c1Final.store "abcd1234-aaaa-bbbb-cccc-dddd" "ETH" = 1 ∧
    getBalance c1Final.store "abcd1234-aaaa-bbbb-cccc-dddd" "ETH" ≠ 2 := by
  have hr1 : ¬((1 : Rat) < 0) := by norm_num
  have hr2 : ¬((1 : Rat) ≤ 0) := by norm_num
  have hr3 : (3 : Rat) + -1 = 2 := by norm_num
  have hr4 : (2 : Rat) + -1 = 1 := by norm_num
  have hr5 : (1 : Rat) ≠ 2 := by norm_num
  refine ⟨?_, ?_, ?_, ?_, ?_, ?_, ?_, ?_⟩ <;>
    simp [hr1, hr2, hr3, hr4, hr5,
      c1PreDebited, c1Final, c1InitStore, c1User, c1IdemKey, c1Tx,
      serviceProcessWithdrawal, listenerProcessWithdrawal, findUserByIdemKey, getUsers,
      goFirstSegment, apiProcessWithdrawal, apiErrorMentionsDuplicate, errMentionsDuplicate,
      apiFailure, processTransaction, processTransactionTx, processTransactionBody,
      findTxByExternalId, findBalanceRow, freshUuid, casUpdateBalance, balanceRowMatches,
      addJournalEntries, journalRowsFor, addJournalEntry, getBalance,
      txCountWithExternalId, emptyStore]

end PrimeSendReceive
